import Mathlib

/-
Shallow embedding of the dsgrid-utils repository (src/dsgutils), covering the
Enumeration data type (src/dsgutils/enum/base.py) and the to_time_unit helper
(src/dsgutils/helpers.py), together with proofs settling the frozen claims.

Python strings are modelled as Lean String; Python len(str) is String.length
(Python counts characters).  Fallible code returns Except Err; Err carries the
Python exception kind (ValueError, IndexError, KeyError, RuntimeError,
NotImplementedError) and the message the code formats.
-/

deriving instance DecidableEq for Except

namespace DSGUtils

/-- Kind of a raised Python exception (builtin or the DSGrid subclasses, which
per src/dsgutils/init are simultaneously the corresponding builtin kind). -/
inductive ErrKind where
  | value
  | index
  | key
  | runtime
  | notImplemented
  deriving DecidableEq, Repr

/-- A raised exception: its kind and the message the code formats. -/
structure Err where
  kind : ErrKind
  msg : String
  deriving DecidableEq, Repr

/-- Python repr of a string (quotes it; escaping is not needed by any message
the embedded code produces). -/
def pyRepr (s : String) : String := "\x27" ++ s ++ "\x27"

/-- Python str of a list of strings, as produced by str.format on a list:
brackets around comma-separated reprs of the elements. -/
def pyStrList (l : List String) : String :=
  "[" ++ String.intercalate ", " (l.map pyRepr) ++ "]"

/-- Python builtin max over an iterable of numbers: raises ValueError on an
empty iterable, otherwise folds binary max. -/
def pyMax (l : List Nat) : Except Err Nat :=
  match l with
  | [] => .error ⟨.value, "max() arg is an empty sequence"⟩
  | x :: xs => .ok (xs.foldl Nat.max x)

/-- Python list.index: position of the first occurrence, ValueError if the
value is absent. -/
def pyListIndex (l : List String) (x : String) : Except Err Nat :=
  if x ∈ l then .ok (l.indexOf x)
  else .error ⟨.value, pyRepr x ++ " is not in list"⟩

/-- Python positional indexing into a list: IndexError when out of range. -/
def pyGetItem (l : List String) (i : Nat) : Except Err String :=
  match l[i]? with
  | some v => .ok v
  | none => .error ⟨.index, "list index out of range"⟩

/-- A Python class is modelled by its inheritance chain, concrete class first,
root last (single inheritance suffices for this code base).  Example:
a derived enumeration class is ["SectorEnumeration", "Enumeration"]. -/
abbrev PyClass := List String

/-- MAX_ID_LEN class attribute (base.py line 48). -/
def MAX_ID_LEN : Nat := 64

/-- MAX_NAME_LEN class attribute (base.py line 49). -/
def MAX_NAME_LEN : Nat := 128

/-- An Enumeration instance.  cls is the concrete class of the instance
(self.class), dimName its DIMENSION_NAME class attribute; name, ids, names
are the instance state (the object dict holds exactly these three). -/
structure Enumeration where
  cls : PyClass
  dimName : String
  name : String
  ids : List String
  names : List String
  deriving DecidableEq, Repr

/-- Python isinstance(obj, cls): obj's concrete class is cls or a subclass of
it, i.e. cls appears as a suffix of obj's inheritance chain. -/
def isinstance (obj : Enumeration) (cls : PyClass) : Bool :=
  cls.isSuffixOf obj.cls

/-- Enumeration._checkvalues (base.py lines 75-93): four sequential checks,
each raising DSGridValueError; the length checks take Python max over the
generator of lengths, which raises builtin ValueError on empty input. -/
def checkvalues (ids names : List String) : Except Err Unit :=
  if ids.length ≠ names.length then
    .error ⟨.value, "Number of ids (" ++ toString ids.length ++
      ") must match number of names (" ++ toString names.length ++ ")"⟩
  else if ids.dedup.length ≠ ids.length then
    .error ⟨.value, "Enumeration ids must be unique"⟩
  else
    match pyMax (ids.map String.length) with
    | .error er => .error er
    | .ok m =>
      if MAX_ID_LEN < m then
        .error ⟨.value, "Enumeration ids cannot exceed " ++
          toString MAX_ID_LEN ++ " characters"⟩
      else
        match pyMax (names.map String.length) with
        | .error er => .error er
        | .ok m2 =>
          if MAX_NAME_LEN < m2 then
            .error ⟨.value, "Enumeration names cannot exceed " ++
              toString MAX_NAME_LEN ++ " characters"⟩
          else .ok ()

/-- Enumeration.init (base.py lines 55-61): store the fields (names defaults
to a deep copy of ids), then validate; on validation failure no instance is
produced.  cls and dimName are the class attributes of the calling class. -/
def enumInit (cls : PyClass) (dimName : String) (name : String)
    (ids : List String) (names : Option (List String)) : Except Err Enumeration :=
  match checkvalues ids (names.getD ids) with
  | .error er => .error er
  | .ok _ => .ok ⟨cls, dimName, name, ids, names.getD ids⟩

/-- Enumeration.get_name (base.py lines 110-112): positional search in ids via
list.index, then positional access into names. -/
def Enumeration.get_name (e : Enumeration) (id : String) : Except Err String :=
  match pyListIndex e.ids id with
  | .error er => .error er
  | .ok ind => pyGetItem e.names ind

/-- One iteration of the fill loop in Enumeration._get_subset_ids_names
(base.py lines 134-139): when the source id occurs in the requested list, the
source (id, name) pair is written at the slot of its first occurrence there. -/
def fillOne (reqIds : List String) (acc : List (Option String) × List (Option String))
    (p : String × String) : List (Option String) × List (Option String) :=
  if p.1 ∈ reqIds then
    (acc.1.set (reqIds.indexOf p.1) (some p.1),
     acc.2.set (reqIds.indexOf p.1) (some p.2))
  else acc

/-- Enumeration._get_subset_ids_names (base.py lines 131-142): arrays of n
None slots, a pass over the source pairs filling slots, then a check that no
slot stayed None, raising DSGridRuntimeError naming both lists. -/
def Enumeration.get_subset_ids_names (e : Enumeration) (reqIds : List String) :
    Except Err (List String × List String) :=
  let init : List (Option String) := List.replicate reqIds.length none
  let r := (e.ids.zip e.names).foldl (fillOne reqIds) (init, init)
  if (r.1.filter Option.isNone).length ≠ 0 then
    .error ⟨.runtime, "At least one of " ++ pyStrList reqIds ++
      " is not in " ++ pyStrList e.ids⟩
  else
    .ok (r.1.map (fun o => o.getD ""), r.2.map (fun o => o.getD ""))

/-- Enumeration.create_subset_enum (base.py lines 114-129): build the subset
id/name arrays, then construct a new instance of self.class with the name
suffixed by " Subset". -/
def Enumeration.create_subset_enum (e : Enumeration) (reqIds : List String) :
    Except Err Enumeration :=
  match e.get_subset_ids_names reqIds with
  | .error er => .error er
  | .ok (ids2, names2) =>
    enumInit e.cls e.dimName (e.name ++ " Subset") ids2 (some names2)

/-- Enumeration.is_subset (base.py lines 144-153): false unless other is an
instance of self.class (isinstance semantics), else containment of ids. -/
def Enumeration.is_subset (e other : Enumeration) : Bool :=
  if ¬ isinstance other e.cls then false
  else e.ids.all (fun i => other.ids.contains i)

/-- Enumeration.eq as written (base.py lines 95-99): isinstance check against
self.class plus comparison of the object dicts (name, ids, names). -/
def Enumeration.dunder_eq (self other : Enumeration) : Bool :=
  isinstance other self.cls &&
    (self.name == other.name && self.ids == other.ids && self.names == other.names)

/-- Python's == operator on two Enumeration instances.  Per the language
reference, when the right operand's class is a proper subclass of the left
operand's class, the right operand's (reflected) method is tried first; the
method here only ever returns a bool, never NotImplemented, so the first
method tried decides the result. -/
def pyEq (v w : Enumeration) : Bool :=
  if v.cls ≠ w.cls ∧ v.cls.isSuffixOf w.cls then w.dunder_eq v
  else v.dunder_eq w

/-- TimeUnits (helpers.py lines 99-106). -/
inductive TimeUnits where
  | year
  | month
  | week
  | day
  | hour
  | minute
  | second
  deriving DecidableEq, Repr

/-- The Python name of a TimeUnits member. -/
def TimeUnits.pyName : TimeUnits → String
  | .year => "year"
  | .month => "month"
  | .week => "week"
  | .day => "day"
  | .hour => "hour"
  | .minute => "minute"
  | .second => "second"

/-- Python str of a TimeUnits member, as an f-string interpolates it. -/
def TimeUnits.pyStr (u : TimeUnits) : String := "TimeUnits." ++ u.pyName

/-- Lookup of a TimeUnits member by its name, as TimeUnits[val] does. -/
def timeUnitsByName (s : String) : Option TimeUnits :=
  if s = "year" then some .year
  else if s = "month" then some .month
  else if s = "week" then some .week
  else if s = "day" then some .day
  else if s = "hour" then some .hour
  else if s = "minute" then some .minute
  else if s = "second" then some .second
  else none

/-- ensure_enum (helpers.py lines 16-32) specialised to TimeUnits and a string
argument: cls[val], raising KeyError when the name is unknown. -/
def ensure_enum (s : String) : Except Err TimeUnits :=
  match timeUnitsByName s with
  | some u => .ok u
  | none => .error ⟨.key, pyRepr s⟩

/-- to_time_unit (helpers.py lines 109-131).  The duration argument is the
number of seconds of the timedelta (the code divides by timedelta64(1, s) to
obtain it); arithmetic is modelled over the rationals, and each of the
successive divisions the code performs is exact in binary floating point for
the values any claim mentions. -/
def to_time_unit (timedelta : ℚ) (time_unit : String) : Except Err ℚ :=
  match ensure_enum time_unit with
  | .error er => .error er
  | .ok u =>
    let result := timedelta
    if u = TimeUnits.second then .ok result
    else
      let result := result / 60
      if u = TimeUnits.minute then .ok result
      else
        let result := result / 60
        if u = TimeUnits.hour then .ok result
        else
          let result := result / 24
          if u = TimeUnits.day then .ok result
          else
            .error ⟨.notImplemented, "timedelta " ++ toString timedelta ++
              " can only be converted directly to seconds, minutes, hours or days. " ++
              "Was asked to convert to " ++ u.pyStr⟩

/-- Number of UTF-8 bytes of a character sequence. -/
def utf8Bytes : List Char → Nat
  | [] => 0
  | c :: cs => c.utf8Size + utf8Bytes cs

/-- Encoded (UTF-8) byte length of a string, as the fixed text encoding
constant ENCODING of dsgutils.enum measures it. -/
def utf8Length (s : String) : Nat := utf8Bytes s.data

/-- Longest prefix of a character sequence fitting a byte budget. -/
def takeBytes (w : Nat) : List Char → List Char
  | [] => []
  | c :: cs => if c.utf8Size ≤ w then c :: takeBytes (w - c.utf8Size) cs else []

/-- Modelled from the spec: a fixed-width byte-string field of the binary
container (spec 4.5: each record field is a fixed-width byte string,
truncated or padded to the field width).  The observable content of such a
field is the stored text up to the byte capacity; padding bytes are stripped
on read and are therefore not represented. -/
def fixedWidthField (w : Nat) (s : String) : String :=
  ⟨takeBytes w s.data⟩

/-- Modelled from the spec: get_str of dsgutils.enum (the module file is not
under src/) decodes a stored byte string or passes a str through; on the
decoded-text model of stored fields it is the identity. -/
def get_str (s : String) : String := s

/-- A dataset of the binary container: the name attribute and the two
fixed-width record columns (spec 4.5 and 6). -/
structure H5Dataset where
  nameAttr : String
  idCol : List String
  nameCol : List String
  deriving DecidableEq, Repr

/-- Modelled from the spec: a container group maps dataset keys to datasets
(spec glossary: a hierarchical storage unit with typed child datasets). -/
abbrev H5Group := List (String × H5Dataset)

/-- Enumeration.persist (base.py lines 155-167): create a dataset keyed by
DIMENSION_NAME holding the name attribute and the id/name columns written
through the fixed-width 64/128-byte fields. -/
def Enumeration.persist (e : Enumeration) (g : H5Group) : H5Group :=
  (e.dimName,
    ⟨e.name,
     e.ids.map (fixedWidthField MAX_ID_LEN),
     e.names.map (fixedWidthField MAX_NAME_LEN)⟩) :: g

/-- Enumeration.load (base.py lines 169-176): read the dataset keyed by the
calling class's DIMENSION_NAME, decode attribute and columns with get_str,
and construct a new instance of the calling class. -/
def Enumeration.load (cls : PyClass) (dimName : String) (g : H5Group) :
    Except Err Enumeration :=
  match g.lookup dimName with
  | none => .error ⟨.key, pyRepr dimName⟩
  | some d =>
    enumInit cls dimName (get_str d.nameAttr)
      (d.idCol.map get_str) (some (d.nameCol.map get_str))

/-! ### Concrete instances used by witnesses and counterexamples -/

/-- The Sector example enumeration of the spec. -/
def eSector : Enumeration :=
  ⟨["Enumeration"], "sector", "Sector", ["res", "com"], ["Residential", "Commercial"]⟩

/-- An instance of a derived enumeration class carrying data identical to
eSector (derived classes such as sector/geography enumerations are the
intended use of the base class). -/
def eDerivedSector : Enumeration :=
  ⟨["SectorEnumeration", "Enumeration"], "sector", "Sector",
   ["res", "com"], ["Residential", "Commercial"]⟩

/-- An id of 33 two-byte characters: 33 characters but 66 UTF-8 bytes. -/
def longId : String := ⟨List.replicate 33 'é'⟩

/-! ### Helper lemmas -/

theorem init_le_foldl_max (x : Nat) (xs : List Nat) : x ≤ xs.foldl Nat.max x := by
  induction xs generalizing x with
  | nil => exact Nat.le_refl x
  | cons y ys ih => exact Nat.le_trans (Nat.le_max_left x y) (ih (Nat.max x y))

theorem mem_le_foldl_max {y : Nat} {xs : List Nat} (hy : y ∈ xs) (x : Nat) :
    y ≤ xs.foldl Nat.max x := by
  induction xs generalizing x with
  | nil => cases hy
  | cons z zs ih =>
    rcases List.mem_cons.1 hy with h | h
    · subst h
      exact Nat.le_trans (Nat.le_max_right x y) (init_le_foldl_max _ zs)
    · exact ih h (Nat.max x z)

theorem foldl_max_le {b x : Nat} {xs : List Nat} (hx : x ≤ b)
    (h : ∀ y ∈ xs, y ≤ b) : xs.foldl Nat.max x ≤ b := by
  induction xs generalizing x with
  | nil => exact hx
  | cons y ys ih =>
    exact ih (Nat.max_le.mpr ⟨hx, h y (List.mem_cons_self y ys)⟩)
      (fun z hz => h z (List.mem_cons_of_mem y hz))

theorem foldl_max_mem (xs : List Nat) (x : Nat) :
    xs.foldl Nat.max x = x ∨ xs.foldl Nat.max x ∈ xs := by
  induction xs generalizing x with
  | nil => exact Or.inl rfl
  | cons z zs ih =>
    rcases ih (Nat.max x z) with h | h
    · rcases Nat.le_total x z with he | he
      · refine Or.inr ?_
        have hz : Nat.max x z = z := max_eq_right he
        rw [List.foldl_cons, h, hz]
        exact List.mem_cons_self z zs
      · have hx : Nat.max x z = x := max_eq_left he
        exact Or.inl (by rw [List.foldl_cons, h, hx])
    · exact Or.inr (List.mem_cons_of_mem z h)

theorem pyMax_spec {l : List Nat} (h : l ≠ []) :
    ∃ m, pyMax l = .ok m ∧ (∀ y ∈ l, y ≤ m) ∧ m ∈ l := by
  match l with
  | [] => exact absurd rfl h
  | x :: xs =>
    refine ⟨xs.foldl Nat.max x, rfl, ?_, ?_⟩
    · intro y hy
      rcases List.mem_cons.1 hy with h1 | h1
      · subst h1; exact init_le_foldl_max y xs
      · exact mem_le_foldl_max h1 x
    · rcases foldl_max_mem xs x with h1 | h1
      · rw [h1]; exact List.mem_cons_self x xs
      · exact List.mem_cons_of_mem x h1

theorem pyMax_error_iff {l : List Nat} {er : Err} :
    pyMax l = .error er ↔ (l = [] ∧ er = ⟨.value, "max() arg is an empty sequence"⟩) := by
  cases l <;> simp [pyMax, eq_comm]

theorem dedup_length_eq_iff {l : List String} :
    l.dedup.length = l.length ↔ l.Nodup := by
  constructor
  · intro h
    exact List.dedup_eq_self.1 ((List.dedup_sublist l).eq_of_length h)
  · intro h
    rw [h.dedup]

theorem pyMax_ok_facts {l : List Nat} {m : Nat} (h : pyMax l = .ok m) :
    l ≠ [] ∧ m ∈ l ∧ (∀ y ∈ l, y ≤ m) := by
  have hne : l ≠ [] := by
    intro he
    subst he
    simp [pyMax] at h
  obtain ⟨m2, hm2, hle, hmem⟩ := pyMax_spec hne
  rw [h] at hm2
  obtain rfl : m = m2 := by injection hm2
  exact ⟨hne, hmem, hle⟩

/-- Characterization of _checkvalues success: nonempty ids (Python max over an
empty generator raises), matching lengths, unique ids, and the per-string
character-length bounds. -/
theorem checkvalues_ok_iff {ids names : List String} :
    checkvalues ids names = .ok () ↔
      (ids ≠ [] ∧ ids.length = names.length ∧ ids.Nodup ∧
       (∀ s ∈ ids, s.length ≤ MAX_ID_LEN) ∧ (∀ s ∈ names, s.length ≤ MAX_NAME_LEN)) := by
  constructor
  · intro h
    rw [checkvalues] at h
    split at h
    · cases h
    next hlen =>
      split at h
      · cases h
      next hdup =>
        split at h
        · cases h
        next m hm =>
          split at h
          · cases h
          next hmle =>
            split at h
            · cases h
            next m2 hm2 =>
              split at h
              · cases h
              next hm2le =>
                obtain ⟨hne, _, hall⟩ := pyMax_ok_facts hm
                obtain ⟨_, _, hall2⟩ := pyMax_ok_facts hm2
                refine ⟨?_, not_ne_iff.1 hlen, dedup_length_eq_iff.1 (not_ne_iff.1 hdup), ?_, ?_⟩
                · intro he
                  subst he
                  simp at hne
                · intro s hs
                  exact Nat.le_trans (hall _ (List.mem_map_of_mem String.length hs))
                    (Nat.not_lt.1 hmle)
                · intro s hs
                  exact Nat.le_trans (hall2 _ (List.mem_map_of_mem String.length hs))
                    (Nat.not_lt.1 hm2le)
  · rintro ⟨hne, hlen, hnd, hid, hnm⟩
    have hnames : names ≠ [] := by
      intro he
      subst he
      exact hne (List.length_eq_zero.1 hlen)
    obtain ⟨m, hm, hle, hmem⟩ := pyMax_spec (l := ids.map String.length) (by simpa using hne)
    obtain ⟨m2, hm2, hle2, hmem2⟩ := pyMax_spec (l := names.map String.length) (by simpa using hnames)
    have hmle : ¬ MAX_ID_LEN < m := by
      obtain ⟨s, hs, rfl⟩ := List.mem_map.1 hmem
      exact Nat.not_lt.2 (hid s hs)
    have hm2le : ¬ MAX_NAME_LEN < m2 := by
      obtain ⟨s, hs, rfl⟩ := List.mem_map.1 hmem2
      exact Nat.not_lt.2 (hnm s hs)
    rw [checkvalues, if_neg (not_ne_iff.2 hlen), if_neg (not_ne_iff.2 (dedup_length_eq_iff.2 hnd))]
    simp only [hm, hm2]
    rw [if_neg hmle, if_neg hm2le]

theorem enumInit_of_checkvalues_ok {cls : PyClass} {dim name : String}
    {ids names : List String} (h : checkvalues ids names = .ok ()) :
    enumInit cls dim name ids (some names) = .ok ⟨cls, dim, name, ids, names⟩ := by
  rw [enumInit]
  simp only [Option.getD_some, h]

theorem enumInit_of_checkvalues_error {cls : PyClass} {dim name : String}
    {ids names : List String} {er : Err} (h : checkvalues ids names = .error er) :
    enumInit cls dim name ids (some names) = .error er := by
  rw [enumInit]
  simp only [Option.getD_some, h]

/-! ### Claim C3 -/

/-- Claim C3 counterexample: the claim includes the empty sequences, but
constructing from the empty ids/names pair does not succeed: Python max over
the empty generator of lengths raises a builtin ValueError. -/
theorem construct_empty_counterexample :
    enumInit ["Enumeration"] "sector" "Empty" [] (some []) =
      .error ⟨.value, "max() arg is an empty sequence"⟩ := by decide

/-- Claim C3 (amended): for every NONEMPTY pair of equal-length sequences with
pairwise-distinct ids within the 64-character bound and names within the
128-character bound, construction succeeds and the resulting instance's ids
and names equal the inputs. -/
theorem construct_valid_ok (cls : PyClass) (dim name : String)
    (ids names : List String) (hne : ids ≠ []) (hlen : ids.length = names.length)
    (hnd : ids.Nodup) (hid : ∀ s ∈ ids, s.length ≤ MAX_ID_LEN)
    (hnm : ∀ s ∈ names, s.length ≤ MAX_NAME_LEN) :
    ∃ e, enumInit cls dim name ids (some names) = .ok e ∧
      e.name = name ∧ e.ids = ids ∧ e.names = names := by
  refine ⟨⟨cls, dim, name, ids, names⟩, ?_, rfl, rfl, rfl⟩
  exact enumInit_of_checkvalues_ok (checkvalues_ok_iff.2 ⟨hne, hlen, hnd, hid, hnm⟩)

/-- Claim C3 witness: the amended theorem at the Sector data. -/
theorem construct_valid_ok_witness :
    ∃ e, enumInit ["Enumeration"] "sector" "Sector" ["res", "com"]
        (some ["Residential", "Commercial"]) = .ok e ∧
      e.name = "Sector" ∧ e.ids = ["res", "com"] ∧ e.names = ["Residential", "Commercial"] :=
  construct_valid_ok ["Enumeration"] "sector" "Sector" ["res", "com"]
    ["Residential", "Commercial"] (by decide) (by decide) (by decide)
    (by decide) (by decide)

/-! ### Claim C4 -/

/-- Claim C4 counterexample: an id of 33 two-byte characters has encoded
length 66 > 64 bytes, yet the constructor accepts it — the code bounds the
character count, not the encoded byte length. -/
theorem construct_bytelen_counterexample :
    MAX_ID_LEN < utf8Length longId ∧
    enumInit ["Enumeration"] "sector" "X" [longId] (some ["x"]) =
      .ok ⟨["Enumeration"], "sector", "X", [longId], ["x"]⟩ := by
  constructor
  · decide
  · decide

/-- Claim C4 (amended): construction fails with a ValueError-kind error
whenever the lengths mismatch, ids contain a duplicate, some id exceeds 64
CHARACTERS, or some name exceeds 128 CHARACTERS; in these cases no instance
is produced (the result is an error, never an instance). -/
theorem construct_invalid_fails (cls : PyClass) (dim name : String)
    (ids names : List String)
    (h : ids.length ≠ names.length ∨ ¬ ids.Nodup ∨
         (∃ s ∈ ids, MAX_ID_LEN < s.length) ∨ (∃ s ∈ names, MAX_NAME_LEN < s.length)) :
    ∃ m, enumInit cls dim name ids (some names) = .error ⟨.value, m⟩ := by
  suffices hcv : ∃ m, checkvalues ids names = .error ⟨.value, m⟩ by
    obtain ⟨m, hm⟩ := hcv
    exact ⟨m, enumInit_of_checkvalues_error hm⟩
  by_cases hlen : ids.length = names.length
  case neg =>
    refine ⟨"Number of ids (" ++ toString ids.length ++
      ") must match number of names (" ++ toString names.length ++ ")", ?_⟩
    rw [checkvalues, if_pos hlen]
  case pos =>
    by_cases hnd : ids.Nodup
    case neg =>
      have hdup : ids.dedup.length ≠ ids.length := by
        intro he
        exact hnd (dedup_length_eq_iff.1 he)
      refine ⟨"Enumeration ids must be unique", ?_⟩
      rw [checkvalues, if_neg (not_ne_iff.2 hlen), if_pos hdup]
    case pos =>
      have hids : (∃ s ∈ ids, MAX_ID_LEN < s.length) ∨ (∃ s ∈ names, MAX_NAME_LEN < s.length) := by
        rcases h with h | h | h | h
        · exact absurd hlen h
        · exact absurd hnd h
        · exact Or.inl h
        · exact Or.inr h
      have hne : ids ≠ [] := by
        rcases hids with ⟨s, hs, _⟩ | ⟨s, hs, _⟩
        · exact List.ne_nil_of_mem hs
        · intro he
          subst he
          rw [List.length_nil] at hlen
          rw [List.eq_nil_of_length_eq_zero hlen.symm] at hs
          cases hs
      obtain ⟨m1, hm1, hle1, _⟩ := pyMax_spec (l := ids.map String.length) (by simpa using hne)
      by_cases hbig : MAX_ID_LEN < m1
      case pos =>
        refine ⟨"Enumeration ids cannot exceed " ++ toString MAX_ID_LEN ++ " characters", ?_⟩
        rw [checkvalues, if_neg (not_ne_iff.2 hlen),
          if_neg (not_ne_iff.2 (dedup_length_eq_iff.2 hnd))]
        simp only [hm1]
        rw [if_pos hbig]
      case neg =>
        rcases hids with ⟨s, hs, hsl⟩ | ⟨s, hs, hsl⟩
        · exact absurd (Nat.lt_of_lt_of_le hsl
            (hle1 _ (List.mem_map_of_mem String.length hs))) hbig
        · have hnames : names ≠ [] := List.ne_nil_of_mem hs
          obtain ⟨m2, hm2, hle2, _⟩ := pyMax_spec (l := names.map String.length)
            (by simpa using hnames)
          have hbig2 : MAX_NAME_LEN < m2 :=
            Nat.lt_of_lt_of_le hsl (hle2 _ (List.mem_map_of_mem String.length hs))
          refine ⟨"Enumeration names cannot exceed " ++ toString MAX_NAME_LEN ++
            " characters", ?_⟩
          rw [checkvalues, if_neg (not_ne_iff.2 hlen),
            if_neg (not_ne_iff.2 (dedup_length_eq_iff.2 hnd))]
          simp only [hm1, hm2]
          rw [if_neg hbig, if_pos hbig2]

/-- Claim C4 witness: the amended theorem at a duplicate-id input. -/
theorem construct_invalid_fails_witness :
    ∃ m, enumInit ["Enumeration"] "sector" "X" ["a", "a"] (some ["x", "y"]) =
      .error ⟨.value, m⟩ :=
  construct_invalid_fails ["Enumeration"] "sector" "X" ["a", "a"] ["x", "y"]
    (Or.inr (Or.inl (by decide)))

theorem getElem?_indexOf {l : List String} {a : String} (h : a ∈ l) :
    l[l.indexOf a]? = some a := by
  have hlt : l.indexOf a < l.length := List.indexOf_lt_length.2 h
  have h2 : l.get ⟨l.indexOf a, hlt⟩ = a := List.indexOf_get hlt
  rw [List.get_eq_getElem] at h2
  rw [List.getElem?_eq_getElem hlt]
  exact congrArg some h2

theorem indexOf_eq_of_getElem?_of_nodup {l : List String} {i : Nat} {x : String}
    (hnd : l.Nodup) (h : l[i]? = some x) : l.indexOf x = i := by
  have hi : i < l.length := (List.getElem?_eq_some.1 h).1
  have hget : l.get ⟨i, hi⟩ = x := by
    have h2 := List.getElem?_eq_getElem hi
    rw [h] at h2
    rw [List.get_eq_getElem]
    exact (Option.some_inj.1 h2).symm
  have hmem : x ∈ l := by
    rw [← hget]
    exact List.get_mem l i hi
  have hlt : l.indexOf x < l.length := List.indexOf_lt_length.2 hmem
  have hx : l.get ⟨l.indexOf x, hlt⟩ = x := List.indexOf_get hlt
  have h3 : l.get ⟨l.indexOf x, hlt⟩ = l.get ⟨i, hi⟩ := by rw [hx, hget]
  have h4 := (List.Nodup.get_inj_iff hnd).1 h3
  exact congrArg Fin.val h4

theorem indexOf_le_of_getElem? {l : List String} {i : Nat} {x : String}
    (h : l[i]? = some x) : l.indexOf x ≤ i := by
  induction l generalizing i with
  | nil => simp at h
  | cons b t ih =>
    cases i with
    | zero =>
      rw [List.getElem?_cons_zero, Option.some_inj] at h
      subst h
      rw [List.indexOf_cons_self]
    | succ k =>
      rw [List.getElem?_cons_succ] at h
      by_cases hb : b = x
      · subst hb
        rw [List.indexOf_cons_self]
        exact Nat.zero_le _
      · rw [List.indexOf_cons_ne _ hb]
        exact Nat.succ_le_succ (ih h)

/-! ### Claim C2 -/

/-- Claim C2 counterexample: looking up an absent id fails, but with a
ValueError-kind error (raised by list.index), not an IndexError-kind one as
the claim states. -/
theorem get_name_missing_counterexample :
    eSector.get_name "g" = .error ⟨.value, pyRepr "g" ++ " is not in list"⟩ ∧
    ErrKind.value ≠ ErrKind.index := by
  constructor
  · decide
  · decide

/-- Claim C2 (amended): for a valid Enumeration, get_name of an absent id
fails with a ValueError-kind error (propagated from list.index), and get_name
of the id at position i returns names at position i. -/
theorem get_name_spec (e : Enumeration) (hv : checkvalues e.ids e.names = .ok ()) :
    (∀ x, x ∉ e.ids →
      e.get_name x = .error ⟨.value, pyRepr x ++ " is not in list"⟩) ∧
    (∀ (i : Nat) (x nm : String), e.ids[i]? = some x → e.names[i]? = some nm →
      e.get_name x = .ok nm) := by
  obtain ⟨-, -, hnd, -, -⟩ := checkvalues_ok_iff.1 hv
  constructor
  · intro x hx
    have hpl : pyListIndex e.ids x = .error ⟨.value, pyRepr x ++ " is not in list"⟩ := by
      rw [pyListIndex, if_neg hx]
    rw [Enumeration.get_name]
    simp only [hpl]
  · intro i x nm hi hnm
    have hmem : x ∈ e.ids := by
      obtain ⟨hlt, hget⟩ := List.getElem?_eq_some.1 hi
      exact hget ▸ List.getElem_mem hlt
    have hpl : pyListIndex e.ids x = .ok i := by
      rw [pyListIndex, if_pos hmem, indexOf_eq_of_getElem?_of_nodup hnd hi]
    rw [Enumeration.get_name]
    simp only [hpl]
    rw [pyGetItem]
    simp only [hnm]

/-- Claim C2 witness: the amended theorem at the Sector data, both the
present and the absent branch. -/
theorem get_name_spec_witness :
    eSector.get_name "res" = .ok "Residential" ∧
    eSector.get_name "com2" = .error ⟨.value, pyRepr "com2" ++ " is not in list"⟩ :=
  ⟨(get_name_spec eSector (by decide)).2 0 "res" "Residential" (by decide) (by decide),
   (get_name_spec eSector (by decide)).1 "com2" (by decide)⟩

/-! ### Claim C9 -/

/-- Claim C9 (confirmed): to_time_unit converts by successive division
(seconds, then by 60, by 60 again, by 24 again), 7200 seconds to hours is
exactly 2, and year/month/week each fail with a NotImplementedError-kind
error whose message names the unsupported unit. -/
theorem to_time_unit_spec (td : ℚ) :
    to_time_unit td "second" = .ok td ∧
    to_time_unit td "minute" = .ok (td / 60) ∧
    to_time_unit td "hour" = .ok (td / 60 / 60) ∧
    to_time_unit td "day" = .ok (td / 60 / 60 / 24) ∧
    to_time_unit (7200 : ℚ) "hour" = .ok 2 ∧
    (∀ u : TimeUnits, u = .year ∨ u = .month ∨ u = .week →
      to_time_unit td u.pyName = .error ⟨.notImplemented,
        "timedelta " ++ toString td ++
        " can only be converted directly to seconds, minutes, hours or days. " ++
        "Was asked to convert to " ++ u.pyStr⟩) := by
  refine ⟨rfl, rfl, rfl, rfl, ?_, ?_⟩
  · have h2 : (7200 : ℚ) / 60 / 60 = 2 := by norm_num
    calc to_time_unit (7200 : ℚ) "hour" = .ok ((7200 : ℚ) / 60 / 60) := rfl
      _ = .ok 2 := by rw [h2]
  · intro u hu
    rcases hu with rfl | rfl | rfl <;> rfl

/-- Claim C9 witness: the theorem at 7200 seconds. -/
theorem to_time_unit_spec_witness :
    to_time_unit (7200 : ℚ) "second" = .ok 7200 ∧
    to_time_unit (7200 : ℚ) "minute" = .ok ((7200 : ℚ) / 60) ∧
    to_time_unit (7200 : ℚ) "hour" = .ok ((7200 : ℚ) / 60 / 60) ∧
    to_time_unit (7200 : ℚ) "day" = .ok ((7200 : ℚ) / 60 / 60 / 24) ∧
    to_time_unit (7200 : ℚ) "hour" = .ok 2 ∧
    (∀ u : TimeUnits, u = .year ∨ u = .month ∨ u = .week →
      to_time_unit (7200 : ℚ) u.pyName = .error ⟨.notImplemented,
        "timedelta " ++ toString (7200 : ℚ) ++
        " can only be converted directly to seconds, minutes, hours or days. " ++
        "Was asked to convert to " ++ u.pyStr⟩) :=
  to_time_unit_spec 7200

theorem takeBytes_of_le {w : Nat} {l : List Char} (h : utf8Bytes l ≤ w) :
    takeBytes w l = l := by
  induction l generalizing w with
  | nil => rfl
  | cons c cs ih =>
    rw [utf8Bytes] at h
    rw [takeBytes, if_pos (Nat.le_trans (Nat.le_add_right _ _) h)]
    rw [ih (by omega)]

theorem fixedWidthField_of_le {w : Nat} {s : String} (h : utf8Length s ≤ w) :
    fixedWidthField w s = s := by
  cases s with
  | mk d =>
    rw [utf8Length] at h
    rw [fixedWidthField]
    exact congrArg String.mk (takeBytes_of_le h)

/-! ### Claim C1 -/

/-- Claim C1 (confirmed): persisting a constructible Enumeration whose ids
and names also satisfy the encoded-byte-length invariants into a container
group and loading it back on the same class reproduces an equal instance:
same class, same dimension key, same name, same ids, same names, same order. -/
theorem persist_load_roundtrip (e : Enumeration) (g : H5Group)
    (hv : checkvalues e.ids e.names = .ok ())
    (hid : ∀ s ∈ e.ids, utf8Length s ≤ MAX_ID_LEN)
    (hnm : ∀ s ∈ e.names, utf8Length s ≤ MAX_NAME_LEN) :
    Enumeration.load e.cls e.dimName (e.persist g) = .ok e := by
  rw [Enumeration.persist, Enumeration.load]
  have hlook : List.lookup e.dimName
      ((e.dimName,
        (⟨e.name, e.ids.map (fixedWidthField MAX_ID_LEN),
          e.names.map (fixedWidthField MAX_NAME_LEN)⟩ : H5Dataset)) :: g) =
      some ⟨e.name, e.ids.map (fixedWidthField MAX_ID_LEN),
        e.names.map (fixedWidthField MAX_NAME_LEN)⟩ := by
    rw [List.lookup]
    simp
  simp only [hlook]
  have hids : (e.ids.map (fixedWidthField MAX_ID_LEN)).map get_str = e.ids := by
    rw [List.map_map]
    have : ∀ s ∈ e.ids, (get_str ∘ fixedWidthField MAX_ID_LEN) s = s := by
      intro s hs
      simp only [Function.comp, get_str]
      exact fixedWidthField_of_le (hid s hs)
    rw [List.map_congr_left this]
    simp
  have hnames : (e.names.map (fixedWidthField MAX_NAME_LEN)).map get_str = e.names := by
    rw [List.map_map]
    have : ∀ s ∈ e.names, (get_str ∘ fixedWidthField MAX_NAME_LEN) s = s := by
      intro s hs
      simp only [Function.comp, get_str]
      exact fixedWidthField_of_le (hnm s hs)
    rw [List.map_congr_left this]
    simp
  simp only [hids, hnames, get_str]
  exact enumInit_of_checkvalues_ok hv

/-- Claim C1 witness: the round trip at the Sector data in the empty group. -/
theorem persist_load_roundtrip_witness :
    Enumeration.load eSector.cls eSector.dimName (eSector.persist []) = .ok eSector :=
  persist_load_roundtrip eSector [] (by decide) (by decide) (by decide)

/-! ### Claim C7 -/

/-- Claim C7 counterexample: an instance of a derived class is not of the
same concrete type, yet is_subset does not return false for it — isinstance
accepts subclass instances, so the containment check runs and yields true on
identical data. -/
theorem is_subset_subclass_counterexample :
    eSector.is_subset eDerivedSector = true ∧
    eDerivedSector.cls ≠ eSector.cls ∧
    eDerivedSector.ids = eSector.ids ∧
    eDerivedSector.names = eSector.names := by
  refine ⟨?_, ?_, ?_, ?_⟩ <;> decide

/-- Claim C7 (amended): is_subset returns false whenever the other object is
not an instance of this object's concrete class (neither that class nor a
subclass of it); otherwise it returns true iff every id of this enumeration
appears among the other's ids — names and ordering are not compared. -/
theorem is_subset_spec (e o : Enumeration) :
    e.is_subset o = true ↔ (isinstance o e.cls = true ∧ ∀ x ∈ e.ids, x ∈ o.ids) := by
  rw [Enumeration.is_subset]
  by_cases h : isinstance o e.cls
  · rw [if_neg (not_not_intro h)]
    simp [h, List.all_eq_true]
  · have hb : isinstance o e.cls = false := by
      rw [Bool.eq_false_iff]
      exact h
    rw [if_pos h]
    simp [hb]

/-- Claim C7 witness: the amended theorem at the base/derived pair. -/
theorem is_subset_spec_witness :
    eSector.is_subset eDerivedSector = true ↔
      (isinstance eDerivedSector eSector.cls = true ∧
       ∀ x ∈ eSector.ids, x ∈ eDerivedSector.ids) :=
  is_subset_spec eSector eDerivedSector

/-! ### Claim C8 -/

/-- Claim C8 (confirmed): equality of Enumeration instances under Python's ==
operator holds exactly when the two objects have the same concrete class and
equal name, ids and names; in particular a subclass instance and a base
instance with identical data are never equal (in either operand order, by the
reflected-operator priority rule). -/
theorem py_eq_spec (v w : Enumeration) :
    pyEq v w = true ↔
      (v.cls = w.cls ∧ v.name = w.name ∧ v.ids = w.ids ∧ v.names = w.names) := by
  rw [pyEq]
  by_cases hc : v.cls = w.cls
  · rw [if_neg (by intro hand; exact hand.1 hc)]
    rw [Enumeration.dunder_eq, isinstance]
    have hs : v.cls.isSuffixOf w.cls = true := by
      rw [List.isSuffixOf_iff_suffix, hc]
    simp [hs, hc, and_assoc]
  · by_cases hs : v.cls.isSuffixOf w.cls = true
    · rw [if_pos ⟨hc, hs⟩]
      rw [Enumeration.dunder_eq, isinstance]
      have hrev : w.cls.isSuffixOf v.cls = false := by
        rw [Bool.eq_false_iff]
        intro hrv
        apply hc
        have h1 := List.isSuffixOf_iff_suffix.1 hs
        have h2 := List.isSuffixOf_iff_suffix.1 hrv
        exact h1.eq_of_length (Nat.le_antisymm h1.length_le h2.length_le)
      simp [hrev, hc]
    · rw [if_neg (by intro hand; exact hs hand.2)]
      rw [Enumeration.dunder_eq, isinstance]
      have hsf : v.cls.isSuffixOf w.cls = false := by
        rw [Bool.eq_false_iff]
        exact hs
      simp [hsf, hc]

/-- Claim C8 witness: equality at the base/derived pair with identical data
is false in both operand orders, and true on equal instances. -/
theorem py_eq_spec_witness :
    (pyEq eSector eDerivedSector = true ↔
      (eSector.cls = eDerivedSector.cls ∧ eSector.name = eDerivedSector.name ∧
       eSector.ids = eDerivedSector.ids ∧ eSector.names = eDerivedSector.names)) ∧
    (pyEq eDerivedSector eSector = true ↔
      (eDerivedSector.cls = eSector.cls ∧ eDerivedSector.name = eSector.name ∧
       eDerivedSector.ids = eSector.ids ∧ eDerivedSector.names = eSector.names)) :=
  ⟨py_eq_spec eSector eDerivedSector, py_eq_spec eDerivedSector eSector⟩

/-! ### The fill loop of _get_subset_ids_names -/

theorem fillOne_length (reqIds : List String)
    (acc : List (Option String) × List (Option String)) (p : String × String) :
    (fillOne reqIds acc p).1.length = acc.1.length ∧
    (fillOne reqIds acc p).2.length = acc.2.length := by
  rw [fillOne]
  split
  · exact ⟨List.length_set .., List.length_set ..⟩
  · exact ⟨rfl, rfl⟩

theorem foldl_fill_length (reqIds : List String) (P : List (String × String)) :
    ∀ acc : List (Option String) × List (Option String),
      (P.foldl (fillOne reqIds) acc).1.length = acc.1.length ∧
      (P.foldl (fillOne reqIds) acc).2.length = acc.2.length := by
  induction P with
  | nil => exact fun acc => ⟨rfl, rfl⟩
  | cons p P ih =>
    intro acc
    rw [List.foldl_cons]
    obtain ⟨h1, h2⟩ := ih (fillOne reqIds acc p)
    obtain ⟨g1, g2⟩ := fillOne_length reqIds acc p
    exact ⟨h1.trans g1, h2.trans g2⟩

/-- A slot never written by any pair of the source keeps its initial value. -/
theorem foldl_fill_no_writer (reqIds : List String) (P : List (String × String))
    (j : Nat) (hno : ∀ p ∈ P, ¬(p.1 ∈ reqIds ∧ reqIds.indexOf p.1 = j)) :
    ∀ acc : List (Option String) × List (Option String),
      (P.foldl (fillOne reqIds) acc).1[j]? = acc.1[j]? ∧
      (P.foldl (fillOne reqIds) acc).2[j]? = acc.2[j]? := by
  induction P with
  | nil => exact fun acc => ⟨rfl, rfl⟩
  | cons p P ih =>
    intro acc
    rw [List.foldl_cons]
    have hstep : (fillOne reqIds acc p).1[j]? = acc.1[j]? ∧
        (fillOne reqIds acc p).2[j]? = acc.2[j]? := by
      rw [fillOne]
      split
      next hmem =>
        have hj : reqIds.indexOf p.1 ≠ j :=
          fun he => hno p (List.mem_cons_self p P) ⟨hmem, he⟩
        exact ⟨List.getElem?_set_ne hj, List.getElem?_set_ne hj⟩
      next => exact ⟨rfl, rfl⟩
    obtain ⟨h1, h2⟩ := ih (fun q hq => hno q (List.mem_cons_of_mem p hq)) (fillOne reqIds acc p)
    exact ⟨h1.trans hstep.1, h2.trans hstep.2⟩

/-- A slot whose unique writer occurs in the source list ends holding that
writer's id and name. -/
theorem foldl_fill_writer (reqIds : List String) (P : List (String × String))
    (j : Nat) (p₀ : String × String) (hp₀ : p₀ ∈ P) (hmem : p₀.1 ∈ reqIds)
    (hj : reqIds.indexOf p₀.1 = j)
    (huniq : ∀ p ∈ P, (p.1 ∈ reqIds ∧ reqIds.indexOf p.1 = j) → p = p₀) :
    ∀ acc : List (Option String) × List (Option String),
      acc.1.length = reqIds.length → acc.2.length = reqIds.length →
      (P.foldl (fillOne reqIds) acc).1[j]? = some (some p₀.1) ∧
      (P.foldl (fillOne reqIds) acc).2[j]? = some (some p₀.2) := by
  induction P with
  | nil => cases hp₀
  | cons p P ih =>
    intro acc hA hB
    rw [List.foldl_cons]
    have hjlt : j < reqIds.length := hj ▸ List.indexOf_lt_length.2 hmem
    by_cases hw : p.1 ∈ reqIds ∧ reqIds.indexOf p.1 = j
    · have hpp : p = p₀ := huniq p (List.mem_cons_self p P) hw
      have hacc1 : (fillOne reqIds acc p).1.length = reqIds.length := by
        rw [(fillOne_length reqIds acc p).1, hA]
      have hacc2 : (fillOne reqIds acc p).2.length = reqIds.length := by
        rw [(fillOne_length reqIds acc p).2, hB]
      by_cases hPw : ∃ q ∈ P, q.1 ∈ reqIds ∧ reqIds.indexOf q.1 = j
      · obtain ⟨q, hq, hqw⟩ := hPw
        have hq₀ : q = p₀ := huniq q (List.mem_cons_of_mem p hq) hqw
        exact ih (hq₀ ▸ hq) (fun r hr hrw => huniq r (List.mem_cons_of_mem p hr) hrw)
          (fillOne reqIds acc p) hacc1 hacc2
      · have hno : ∀ q ∈ P, ¬(q.1 ∈ reqIds ∧ reqIds.indexOf q.1 = j) :=
          fun q hq hqw => hPw ⟨q, hq, hqw⟩
        obtain ⟨h1, h2⟩ := foldl_fill_no_writer reqIds P j hno (fillOne reqIds acc p)
        have hset1 : (fillOne reqIds acc p).1[j]? = some (some p.1) := by
          rw [fillOne, if_pos hw.1, hw.2]
          exact List.getElem?_set_self (hA ▸ hjlt)
        have hset2 : (fillOne reqIds acc p).2[j]? = some (some p.2) := by
          rw [fillOne, if_pos hw.1, hw.2]
          exact List.getElem?_set_self (hB ▸ hjlt)
        exact ⟨h1.trans (hset1.trans (by rw [hpp])),
          h2.trans (hset2.trans (by rw [hpp]))⟩
    · have hpne : p₀ ∈ P := by
        rcases List.mem_cons.1 hp₀ with he | he
        · exact absurd ⟨he ▸ hmem, he ▸ hj⟩ hw
        · exact he
      have hacc1 : (fillOne reqIds acc p).1.length = reqIds.length := by
        rw [(fillOne_length reqIds acc p).1, hA]
      have hacc2 : (fillOne reqIds acc p).2.length = reqIds.length := by
        rw [(fillOne_length reqIds acc p).2, hB]
      exact ih hpne (fun r hr hrw => huniq r (List.mem_cons_of_mem p hr) hrw)
        (fillOne reqIds acc p) hacc1 hacc2

/-- If some requested slot has no writer among the source pairs, the subset
construction fails with the DSGridRuntimeError naming both lists. -/
theorem get_subset_error_of_unfilled (e : Enumeration) (reqIds : List String)
    (j : Nat) (hj : j < reqIds.length)
    (hno : ∀ p ∈ e.ids.zip e.names, ¬(p.1 ∈ reqIds ∧ reqIds.indexOf p.1 = j)) :
    e.get_subset_ids_names reqIds = .error ⟨.runtime,
      "At least one of " ++ pyStrList reqIds ++ " is not in " ++ pyStrList e.ids⟩ := by
  simp only [Enumeration.get_subset_ids_names]
  have hinit : (List.replicate reqIds.length (none : Option String))[j]? = some none :=
    List.getElem?_replicate_of_lt hj
  obtain ⟨h1, -⟩ := foldl_fill_no_writer reqIds (e.ids.zip e.names) j hno
    (List.replicate reqIds.length none, List.replicate reqIds.length none)
  have hjv : ((e.ids.zip e.names).foldl (fillOne reqIds)
      (List.replicate reqIds.length none, List.replicate reqIds.length none)).1[j]? =
      some none := h1.trans hinit
  have hmem : (none : Option String) ∈ ((e.ids.zip e.names).foldl (fillOne reqIds)
      (List.replicate reqIds.length none, List.replicate reqIds.length none)).1 :=
    List.getElem?_mem hjv
  have hfil : (((e.ids.zip e.names).foldl (fillOne reqIds)
      (List.replicate reqIds.length none, List.replicate reqIds.length none)).1.filter
        Option.isNone).length ≠ 0 := by
    intro hzero
    have hnil := List.eq_nil_of_length_eq_zero hzero
    have : (none : Option String) ∈ (((e.ids.zip e.names).foldl (fillOne reqIds)
        (List.replicate reqIds.length none, List.replicate reqIds.length none)).1.filter
          Option.isNone) := List.mem_filter.2 ⟨hmem, rfl⟩
    rw [hnil] at this
    cases this
  rw [if_pos hfil]

/-! ### Claim C6 -/

/-- Claim C6 (confirmed): requesting a subset containing an id absent from
the source fails with a RuntimeError-kind error whose message names the full
requested list and the available ids; no missing id is silently dropped (the
call returns no enumeration at all). -/
theorem create_subset_missing_fails (e : Enumeration) (reqIds : List String)
    (x : String) (hx : x ∈ reqIds) (hmiss : x ∉ e.ids) :
    e.create_subset_enum reqIds = .error ⟨.runtime,
      "At least one of " ++ pyStrList reqIds ++ " is not in " ++ pyStrList e.ids⟩ := by
  have hj : reqIds.indexOf x < reqIds.length := List.indexOf_lt_length.2 hx
  have hno : ∀ p ∈ e.ids.zip e.names,
      ¬(p.1 ∈ reqIds ∧ reqIds.indexOf p.1 = reqIds.indexOf x) := by
    rintro ⟨a, b⟩ hp ⟨hpm, hpe⟩
    have ha : a ∈ e.ids := (List.of_mem_zip hp).1
    have hga : reqIds[reqIds.indexOf a]? = some a := getElem?_indexOf hpm
    have hgx : reqIds[reqIds.indexOf x]? = some x := getElem?_indexOf hx
    rw [hpe] at hga
    have hax : a = x := Option.some_inj.1 (hga.symm.trans hgx)
    exact hmiss (hax ▸ ha)
  have herr := get_subset_error_of_unfilled e reqIds (reqIds.indexOf x) hj hno
  rw [Enumeration.create_subset_enum]
  simp only [herr]

/-- Claim C6 witness: the theorem at the Sector data with an absent id. -/
theorem create_subset_missing_fails_witness :
    eSector.create_subset_enum ["com", "zzz"] = .error ⟨.runtime,
      "At least one of " ++ pyStrList ["com", "zzz"] ++ " is not in " ++
        pyStrList eSector.ids⟩ :=
  create_subset_missing_fails eSector ["com", "zzz"] "zzz" (by decide) (by decide)

/-! ### Claim C10 -/

/-- Claim C10 (confirmed): a requested list containing a duplicate id (all
its elements present in the source) fails with a RuntimeError-kind error:
a source id only ever fills the slot of its first occurrence in the
requested list, so the slot of a later duplicate occurrence stays unfilled
and triggers the missing-slot failure. -/
theorem create_subset_duplicate_fails (e : Enumeration) (reqIds : List String)
    (x : String) (j1 j2 : Nat) (h12 : j1 < j2)
    (h1 : reqIds[j1]? = some x) (h2 : reqIds[j2]? = some x)
    (_hall : ∀ y ∈ reqIds, y ∈ e.ids) :
    e.create_subset_enum reqIds = .error ⟨.runtime,
      "At least one of " ++ pyStrList reqIds ++ " is not in " ++ pyStrList e.ids⟩ := by
  have hj2 : j2 < reqIds.length := (List.getElem?_eq_some.1 h2).1
  have hno : ∀ p ∈ e.ids.zip e.names, ¬(p.1 ∈ reqIds ∧ reqIds.indexOf p.1 = j2) := by
    rintro ⟨a, b⟩ hp ⟨hpm, hpe⟩
    have hga : reqIds[reqIds.indexOf a]? = some a := getElem?_indexOf hpm
    rw [hpe] at hga
    have hax : a = x := Option.some_inj.1 (hga.symm.trans h2)
    subst hax
    have hle : reqIds.indexOf a ≤ j1 := indexOf_le_of_getElem? h1
    have hpe2 : reqIds.indexOf a = j2 := hpe
    omega
  have herr := get_subset_error_of_unfilled e reqIds j2 hj2 hno
  rw [Enumeration.create_subset_enum]
  simp only [herr]

/-- Claim C10 witness: the theorem at the Sector data with a duplicated id. -/
theorem create_subset_duplicate_fails_witness :
    eSector.create_subset_enum ["res", "res"] = .error ⟨.runtime,
      "At least one of " ++ pyStrList ["res", "res"] ++ " is not in " ++
        pyStrList eSector.ids⟩ :=
  create_subset_duplicate_fails eSector ["res", "res"] "res" 0 1 (by decide)
    (by decide) (by decide) (by decide)

/-! ### Claim C5 -/

/-- Claim C5 counterexample: the claim covers every duplicate-free requested
list, including the empty one, but requesting the empty subset does not
return an instance: the constructor of the new enumeration raises the builtin
ValueError of max over an empty sequence. -/
theorem create_subset_empty_counterexample :
    eSector.create_subset_enum [] = .error ⟨.value, "max() arg is an empty sequence"⟩ := by
  decide

/-- Claim C5 (amended): for every valid Enumeration and every NONEMPTY
duplicate-free requested list whose elements all occur in the source ids,
create_subset_enum returns a new instance whose ids equal the requested list
in the requested order, whose names are the positionally corresponding names
of the source, and whose name is the source name followed by " Subset". -/
theorem create_subset_enum_spec (e : Enumeration) (reqIds : List String)
    (hv : checkvalues e.ids e.names = .ok ()) (hne : reqIds ≠ [])
    (hnd : reqIds.Nodup) (hsub : ∀ x ∈ reqIds, x ∈ e.ids) :
    ∃ e2, e.create_subset_enum reqIds = .ok e2 ∧
      e2.cls = e.cls ∧ e2.name = e.name ++ " Subset" ∧ e2.ids = reqIds ∧
      e2.names.length = reqIds.length ∧
      (∀ (j : Nat) (x : String), reqIds[j]? = some x →
        e2.names[j]? = e.names[e.ids.indexOf x]?) := by
  obtain ⟨-, hlen, hidsnd, hid64, hnm128⟩ := checkvalues_ok_iff.1 hv
  have hzlen : (e.ids.zip e.names).length = e.ids.length := by
    rw [List.length_zip, hlen, Nat.min_self]
  set r := (e.ids.zip e.names).foldl (fillOne reqIds)
    (List.replicate reqIds.length none, List.replicate reqIds.length none) with hr
  have hlr1 : r.1.length = reqIds.length := by
    rw [hr]
    rw [(foldl_fill_length reqIds (e.ids.zip e.names)
      (List.replicate reqIds.length none, List.replicate reqIds.length none)).1]
    exact List.length_replicate ..
  have hlr2 : r.2.length = reqIds.length := by
    rw [hr]
    rw [(foldl_fill_length reqIds (e.ids.zip e.names)
      (List.replicate reqIds.length none, List.replicate reqIds.length none)).2]
    exact List.length_replicate ..
  have hslot : ∀ (j : Nat) (x : String), reqIds[j]? = some x →
      ∃ nm, e.names[e.ids.indexOf x]? = some nm ∧
        r.1[j]? = some (some x) ∧ r.2[j]? = some (some nm) := by
    intro j x hjx
    have hxmem : x ∈ reqIds := List.getElem?_mem hjx
    have hxe : x ∈ e.ids := hsub x hxmem
    have hi : e.ids.indexOf x < e.ids.length := List.indexOf_lt_length.2 hxe
    have hiN : e.ids.indexOf x < e.names.length := by omega
    have hiz : e.ids.indexOf x < (e.ids.zip e.names).length := by omega
    have hjeq : reqIds.indexOf x = j := indexOf_eq_of_getElem?_of_nodup hnd hjx
    have hidsx : e.ids[e.ids.indexOf x]? = some x := getElem?_indexOf hxe
    have hidsv : e.ids[e.ids.indexOf x] = x :=
      Option.some_inj.1 ((List.getElem?_eq_getElem hi).symm.trans hidsx)
    refine ⟨e.names[e.ids.indexOf x], List.getElem?_eq_getElem hiN, ?_⟩
    have hzip : (e.ids.zip e.names)[e.ids.indexOf x]? =
        some (x, e.names[e.ids.indexOf x]) := by
      rw [List.getElem?_eq_getElem hiz, List.getElem_zip, hidsv]
    have hp0 : (x, e.names[e.ids.indexOf x]) ∈ e.ids.zip e.names :=
      List.getElem?_mem hzip
    have huniq : ∀ p ∈ e.ids.zip e.names,
        (p.1 ∈ reqIds ∧ reqIds.indexOf p.1 = j) → p = (x, e.names[e.ids.indexOf x]) := by
      rintro ⟨a, b⟩ hp ⟨hpm, hpe⟩
      obtain ⟨k, hzk⟩ := List.mem_iff_getElem?.1 hp
      have hkz : k < (e.ids.zip e.names).length := (List.getElem?_eq_some.1 hzk).1
      have hk : k < e.ids.length := by omega
      have hkN : k < e.names.length := by omega
      have hzkk : (e.ids.zip e.names)[k]? = some (e.ids[k], e.names[k]) := by
        rw [List.getElem?_eq_getElem hkz, List.getElem_zip]
      have hpk : (a, b) = (e.ids[k], e.names[k]) :=
        Option.some_inj.1 (hzk.symm.trans hzkk)
      have hga : reqIds[reqIds.indexOf a]? = some a := getElem?_indexOf hpm
      have hpe2 : reqIds.indexOf a = j := hpe
      rw [hpe2] at hga
      have hax : a = x := Option.some_inj.1 (hga.symm.trans hjx)
      have hka : e.ids[k] = a := (congrArg Prod.fst hpk).symm
      have hkk : k = e.ids.indexOf x := by
        have hh : e.ids[k] = e.ids[e.ids.indexOf x] := by rw [hka, hax, hidsv]
        exact (@List.Nodup.getElem_inj_iff String e.ids hidsnd k hk
          (List.indexOf x e.ids) hi).1 hh
      subst hkk
      rw [hidsv] at hpk
      exact hpk
    have hw := foldl_fill_writer reqIds (e.ids.zip e.names) j
      (x, e.names[e.ids.indexOf x]) hp0 hxmem (by rw [← hjeq]) huniq
      (List.replicate reqIds.length none, List.replicate reqIds.length none)
      (List.length_replicate ..) (List.length_replicate ..)
    rw [hr]
    exact hw
  have hfil : (r.1.filter Option.isNone).length = 0 := by
    rw [List.length_eq_zero, List.filter_eq_nil_iff]
    intro o ho
    obtain ⟨k, hk⟩ := List.mem_iff_getElem?.1 ho
    have hklt : k < r.1.length := (List.getElem?_eq_some.1 hk).1
    have hkn : k < reqIds.length := by omega
    obtain ⟨nm, -, hw1, -⟩ := hslot k reqIds[k] (List.getElem?_eq_getElem hkn)
    have ho2 : o = some reqIds[k] := Option.some_inj.1 (hk.symm.trans hw1)
    rw [ho2]
    simp
  have hok : e.get_subset_ids_names reqIds =
      .ok (r.1.map (fun o => o.getD ""), r.2.map (fun o => o.getD "")) := by
    simp only [Enumeration.get_subset_ids_names]
    rw [← hr]
    rw [if_neg (not_ne_iff.2 hfil)]
  have hids2 : r.1.map (fun o => o.getD "") = reqIds := by
    apply List.ext_getElem?
    intro k
    rw [List.getElem?_map]
    by_cases hkn : k < reqIds.length
    · obtain ⟨nm, -, hw1, -⟩ := hslot k reqIds[k] (List.getElem?_eq_getElem hkn)
      rw [hw1, List.getElem?_eq_getElem hkn]
      rfl
    · have hg1 : r.1[k]? = none := List.getElem?_eq_none (by omega)
      have hg2 : reqIds[k]? = none := List.getElem?_eq_none (by omega)
      rw [hg1, hg2]
      rfl
  have hlen2 : (r.2.map (fun o => o.getD "")).length = reqIds.length := by
    rw [List.length_map, hlr2]
  have hnames2 : ∀ (j : Nat) (x : String), reqIds[j]? = some x →
      (r.2.map (fun o => o.getD ""))[j]? = e.names[e.ids.indexOf x]? := by
    intro j x hjx
    obtain ⟨nm, hnmeq, -, hw2⟩ := hslot j x hjx
    rw [List.getElem?_map, hw2, hnmeq]
    rfl
  have hcv2 : checkvalues (r.1.map (fun o => o.getD ""))
      (r.2.map (fun o => o.getD "")) = .ok () := by
    rw [hids2]
    refine checkvalues_ok_iff.2 ⟨hne, ?_, hnd, ?_, ?_⟩
    · rw [hlen2]
    · intro s hs
      exact hid64 s (hsub s hs)
    · intro s hs
      obtain ⟨k, hk⟩ := List.mem_iff_getElem?.1 hs
      have hklt : k < (r.2.map (fun o => o.getD "")).length :=
        (List.getElem?_eq_some.1 hk).1
      have hkn : k < reqIds.length := by omega
      have hmap := hnames2 k reqIds[k] (List.getElem?_eq_getElem hkn)
      rw [hk] at hmap
      exact hnm128 s (List.getElem?_mem hmap.symm)
  refine ⟨⟨e.cls, e.dimName, e.name ++ " Subset",
    r.1.map (fun o => o.getD ""), r.2.map (fun o => o.getD "")⟩,
    ?_, rfl, rfl, hids2, hlen2, hnames2⟩
  rw [Enumeration.create_subset_enum]
  simp only [hok]
  exact enumInit_of_checkvalues_ok hcv2

/-- Claim C5 witness: the amended theorem at the claim's Sector example with
the reordered request. -/
theorem create_subset_enum_spec_witness :
    ∃ e2, eSector.create_subset_enum ["com", "res"] = .ok e2 ∧
      e2.cls = eSector.cls ∧ e2.name = eSector.name ++ " Subset" ∧
      e2.ids = ["com", "res"] ∧ e2.names.length = (["com", "res"] : List String).length ∧
      (∀ (j : Nat) (x : String), (["com", "res"] : List String)[j]? = some x →
        e2.names[j]? = eSector.names[eSector.ids.indexOf x]?) :=
  create_subset_enum_spec eSector ["com", "res"] (by decide) (by decide)
    (by decide) (by decide)

end DSGUtils
